import Mathlib

/-!
Verification of the Spot-Smart occupancy inference engine.

This file shallowly embeds the algorithmic core of the repository's
`backend/ai_detection` package and proves properties about it:

* `parking_mapper.py` — `ParkingMapper._calculate_space_overlap`,
  `check_space_occupancy`, `save_parking_spaces` / `load_parking_spaces`;
* `yolo_detector.py` — `YOLOParkingDetector._calculate_iou`,
  `_calculate_max_overlap_with_cars`, the three-way classification and the
  aggregate statistics of `analyze_parking_lot`;
* `video_processor.py` — `VideoProcessor._calculate_overlap` and the fusion
  logic of `detect_cars_hybrid`;
* `parking_detector.py` — the per-spot feature scoring of
  `ParkingDetector._analyze_single_spot` and the aggregate statistics of
  `detect_parking_spaces`.

Real arithmetic of the Python source (box coordinates are `int`, ratios and
confidences `float`) is modelled exactly over `ℤ` and `ℚ`; every constant in
play (`0.2`, `0.25`, `0.3`, `0.6`, `1.2`, …) is an exact rational and all
comparisons in the source are reproduced verbatim.
-/

namespace SpotSmart

/-! ### Boxes

`Box` is an `(x, y, w, h)` rectangle as used by `ParkingMapper` and
`VideoProcessor`; `BoxC` is an `(x_min, y_min, x_max, y_max)` corner rectangle
as used by `YOLOParkingDetector`.  Coordinates are integers, matching the
`List[int]` bboxes of the source. -/

structure Box where
  x : ℤ
  y : ℤ
  w : ℤ
  h : ℤ
deriving DecidableEq

structure BoxC where
  x1 : ℤ
  y1 : ℤ
  x2 : ℤ
  y2 : ℤ
deriving DecidableEq

/-- Embeds `ParkingMapper._calculate_space_overlap` (parking_mapper.py,
lines 193–213): the intersection area of the space box and the car box,
divided by the space box's own area; `0.0` when the intersection is empty or
the space area is not positive. -/
def spaceOverlap (s c : Box) : ℚ :=
  let ix1 := max s.x c.x
  let iy1 := max s.y c.y
  let ix2 := min (s.x + s.w) (c.x + c.w)
  let iy2 := min (s.y + s.h) (c.y + c.h)
  if ix2 ≤ ix1 ∨ iy2 ≤ iy1 then 0
  else if 0 < s.w * s.h then
    (((ix2 - ix1) * (iy2 - iy1) : ℤ) : ℚ) / ((s.w * s.h : ℤ) : ℚ)
  else 0

/-- Embeds `YOLOParkingDetector._calculate_iou` (yolo_detector.py, lines
82–105): symmetric intersection-over-union of two corner boxes. -/
def calculateIou (b1 b2 : BoxC) : ℚ :=
  let ix1 := max b1.x1 b2.x1
  let iy1 := max b1.y1 b2.y1
  let ix2 := min b1.x2 b2.x2
  let iy2 := min b1.y2 b2.y2
  if ix2 < ix1 ∨ iy2 < iy1 then 0
  else
    let inter := (ix2 - ix1) * (iy2 - iy1)
    let a1 := (b1.x2 - b1.x1) * (b1.y2 - b1.y1)
    let a2 := (b2.x2 - b2.x1) * (b2.y2 - b2.y1)
    let u := a1 + a2 - inter
    if u = 0 then 0 else ((inter : ℤ) : ℚ) / ((u : ℤ) : ℚ)

/-- Embeds `YOLOParkingDetector._calculate_max_overlap_with_cars`
(yolo_detector.py, lines 72–80): the running maximum, starting from `0`, of
`_calculate_iou` between the space box and each detected car box. -/
def maxOverlapWithCars (space : BoxC) (cars : List BoxC) : ℚ :=
  cars.foldl (fun acc c => max acc (calculateIou space c)) 0

/-- The three occupancy states a space can receive in
`YOLOParkingDetector.analyze_parking_lot`.  The source's status strings are
`'occupied'`, `'partially_free'` (the spec's `partial`) and `'free'`. -/
inductive SpaceStatus where
  | occupied
  | partlyFree
  | free
deriving DecidableEq

/-- Embeds the classification chain of
`YOLOParkingDetector.analyze_parking_lot` (yolo_detector.py, lines 53–61):
`overlap_ratio > 0.6` gives occupied, `elif overlap_ratio > 0.2` gives
partially free, else free. -/
def classifyOverlap (r : ℚ) : SpaceStatus :=
  if 3/5 < r then SpaceStatus.occupied
  else if 1/5 < r then SpaceStatus.partlyFree
  else SpaceStatus.free

/-- The two boxes intersect in a rectangle of positive area. -/
def boxesIntersect (s c : Box) : Prop :=
  max s.x c.x < min (s.x + s.w) (c.x + c.w) ∧
  max s.y c.y < min (s.y + s.h) (c.y + c.h)

/-- The `outer` box fully contains the `inner` box. -/
def boxContains (outer inner : Box) : Prop :=
  outer.x ≤ inner.x ∧ outer.y ≤ inner.y ∧
  inner.x + inner.w ≤ outer.x + outer.w ∧ inner.y + inner.h ≤ outer.y + outer.h

/-- The `outer` corner box fully contains the `inner` corner box. -/
def boxContainsC (outer inner : BoxC) : Prop :=
  outer.x1 ≤ inner.x1 ∧ outer.y1 ≤ inner.y1 ∧
  inner.x2 ≤ outer.x2 ∧ inner.y2 ≤ outer.y2

/-! ### ParkingMapper occupancy (parking_mapper.py) -/

/-- A detected car as consumed by `ParkingMapper.check_space_occupancy`: an
`(x, y, w, h)` bbox, a confidence and an identifier. -/
structure CarDet where
  bbox : Box
  confidence : ℚ
  id : String
deriving DecidableEq

/-- The per-space record produced by `ParkingMapper.check_space_occupancy`
(`space_id` omitted: it is copied verbatim from the input). -/
structure OccResult where
  occupied : Bool
  confidence : ℚ
  detected_car : Option String
  overlap_ratio : ℚ
deriving DecidableEq

/-- Embeds `ParkingMapper.check_space_occupancy` (parking_mapper.py, lines
153–191): scan the detected cars in order; the first one whose
`_calculate_space_overlap` with the space exceeds `0.3` is reported as the
occupying car with confidence `min(1.0, car_confidence + overlap * 0.3)`;
if no car qualifies the space is available with confidence `0.8` and
`overlap_ratio` `0.0`. -/
def check_space_occupancy (space : Box) : List CarDet → OccResult
  | [] => ⟨false, 4/5, none, 0⟩
  | car :: rest =>
    if 3/10 < spaceOverlap space car.bbox then
      ⟨true, min 1 (car.confidence + spaceOverlap space car.bbox * (3/10)),
       some car.id, spaceOverlap space car.bbox⟩
    else check_space_occupancy space rest

/-- The maximum `_calculate_space_overlap` of a space against a list of cars
(running maximum starting from `0`). -/
def maxSpaceOverlap (space : Box) (cars : List CarDet) : ℚ :=
  cars.foldl (fun acc car => max acc (spaceOverlap space car.bbox)) 0

/-! ### SpaceMap persistence (parking_mapper.py, lines 18–46)

`save_parking_spaces` serialises `{video_width, video_height, total_spaces,
parking_spaces}` to JSON; `load_parking_spaces` reads back
`parking_spaces` / `video_width` / `video_height` with `dict.get` defaults
`[]` / `1280` / `720`.  JSON round-trips the record's strings and integers
identically, so the persisted file is modelled as the record it encodes,
with every field optional on the read side to model `dict.get`. -/

/-- A space's `row` label: rows 1–4 are integers, the side rows the strings
`'left'` / `'right'`. -/
inductive RowLabel where
  | num : ℤ → RowLabel
  | tag : String → RowLabel
deriving DecidableEq

/-- One entry of `ParkingMapper.parking_spaces`. -/
structure ParkingSpace where
  id : String
  coordinates : List ℤ
  row : RowLabel
  position : ℤ
deriving DecidableEq

/-- The mutable state of a `ParkingMapper` relevant to persistence. -/
structure MapperState where
  parking_spaces : List ParkingSpace
  video_width : ℤ
  video_height : ℤ
deriving DecidableEq

/-- The JSON config record; each field is optional on the read side because
`load_parking_spaces` accesses them with `config.get(key, default)`. -/
structure MapperConfig where
  video_width : Option ℤ
  video_height : Option ℤ
  total_spaces : Option ℕ
  parking_spaces : Option (List ParkingSpace)
deriving DecidableEq

/-- Embeds `ParkingMapper.save_parking_spaces` (parking_mapper.py, lines
32–46): writes all four fields. -/
def save_parking_spaces (m : MapperState) : MapperConfig :=
  ⟨some m.video_width, some m.video_height,
   some m.parking_spaces.length, some m.parking_spaces⟩

/-- Embeds `ParkingMapper.load_parking_spaces` (parking_mapper.py, lines
18–30): reads `parking_spaces`, `video_width`, `video_height` with defaults
`[]`, `1280`, `720`. -/
def load_parking_spaces (cfg : MapperConfig) : MapperState :=
  ⟨cfg.parking_spaces.getD [], cfg.video_width.getD 1280,
   cfg.video_height.getD 720⟩

/-! ### Detection fusion (video_processor.py) -/

/-- A detection as handled by `VideoProcessor.detect_cars_hybrid`: only the
bbox and the confidence take part in the fusion logic. -/
structure Det where
  bbox : Box
  confidence : ℚ
deriving DecidableEq

/-- The confidence boost applied to every YOLO (model) detection in
`detect_cars_hybrid` (video_processor.py, lines 234–237): multiply by `1.2`,
cap at `1.0`; the bbox is unchanged. -/
def boostDet (d : Det) : Det := ⟨d.bbox, min 1 (d.confidence * (6/5))⟩

/-- Embeds `VideoProcessor._calculate_overlap` (video_processor.py, lines
255–275): IoU of two `(x, y, w, h)` boxes; `0.0` when the intersection is
empty or the union area is not positive. -/
def calculate_overlap (b1 b2 : Box) : ℚ :=
  let ix1 := max b1.x b2.x
  let iy1 := max b1.y b2.y
  let ix2 := min (b1.x + b1.w) (b2.x + b2.w)
  let iy2 := min (b1.y + b1.h) (b2.y + b2.h)
  if ix2 ≤ ix1 ∨ iy2 ≤ iy1 then 0
  else
    let inter := (ix2 - ix1) * (iy2 - iy1)
    let u := b1.w * b1.h + b2.w * b2.h - inter
    if 0 < u then ((inter : ℤ) : ℚ) / ((u : ℤ) : ℚ) else 0

/-- A MOG2 (blob) detection is kept iff its `_calculate_overlap` against
every YOLO detection does not exceed `0.3` (the source drops it as soon as
one overlap is `> 0.3`, video_processor.py, lines 240–248). -/
def keepBlob (yolo : List Det) (b : Det) : Bool :=
  ! yolo.any (fun y2 => decide ((3/10 : ℚ) < calculate_overlap b.bbox y2.bbox))

/-- Embeds the fusion logic of `VideoProcessor.detect_cars_hybrid`
(video_processor.py, lines 221–253): boost every YOLO detection, keep the
blob detections that do not duplicate a YOLO detection, and stable-sort the
merged list by confidence, descending (Python's `list.sort(key=…,
reverse=True)` is a stable descending sort, modelled by `mergeSort` with the
reversed comparison). -/
def detect_cars_hybrid (yolo blobs : List Det) : List Det :=
  (yolo.map boostDet ++ blobs.filter (keepBlob yolo)).mergeSort
    (fun a b => decide (b.confidence ≤ a.confidence))

/-! ### Static feature classifier (parking_detector.py)

`ParkingDetector._analyze_single_spot` computes five pixel indicators of the
clipped region (edge density, grayscale variance, mean brightness, count of
large contours, grayscale standard deviation) with OpenCV and then combines
them with pure threshold arithmetic.  The pixel extraction is outside the
embedding; the indicator values are the function's inputs here, and the
scoring, verdict and result assembly (lines 216–286) are embedded exactly. -/

structure Indicators where
  edge_density : ℚ
  color_variance : ℚ
  avg_brightness : ℚ
  texture_std : ℚ
  contour_count : ℕ
deriving DecidableEq

/-- The weak-signal count of `_analyze_single_spot` (lines 253–260):
`edge_density > 0.01`, `color_variance > 100`, `texture_std > 10`. -/
def weak_signals (m : Indicators) : ℕ :=
  (if 1/100 < m.edge_density then 1 else 0)
  + (if 100 < m.color_variance then 1 else 0)
  + (if 10 < m.texture_std then 1 else 0)

/-- The brightness contribution (lines 236–241): `< 120` awards the shadow
bonus `0.25`, `elif > 140` the bright-surface bonus `0.15`. -/
def brightness_score (b : ℚ) : ℚ :=
  if b < 120 then 1/4 else if 140 < b then 3/20 else 0

/-- The cumulative score of `_analyze_single_spot` (lines 222–263):
`0.35`·(edge density > `0.02`) + `0.3`·(variance > `200`) + brightness
contribution + `0.3`·(contour count > `1`) + `0.2`·(texture std > `15`) +
`0.15`·(at least two weak signals). -/
def spot_score (m : Indicators) : ℚ :=
  (if 1/50 < m.edge_density then 7/20 else 0)
  + (if 200 < m.color_variance then 3/10 else 0)
  + brightness_score m.avg_brightness
  + (if 1 < m.contour_count then 3/10 else 0)
  + (if 15 < m.texture_std then 1/5 else 0)
  + (if 2 ≤ weak_signals m then 3/20 else 0)

/-- The verdict of `_analyze_single_spot` (lines 266–271): occupied iff
`score > 0.25` (strict). -/
def spot_occupied (m : Indicators) : Bool := decide (1/4 < spot_score m)

/-- The confidence of `_analyze_single_spot` (lines 266–271):
`min(score, 1.0)` when occupied, else `1.0 - score`. -/
def spot_confidence (m : Indicators) : ℚ :=
  if 1/4 < spot_score m then min (spot_score m) 1 else 1 - spot_score m

/-- Python's `round(q, 2)` on the exact rationals arising here (they are all
multiples of `1/20`, or quotients of small integers away from half-cent
ties, where Python's round-half-even and mathematical rounding agree). -/
def round2 (q : ℚ) : ℚ := ((round (q * 100) : ℤ) : ℚ) / 100

/-- Python's `round(q, 4)`, used for the reported edge density. -/
def round4 (q : ℚ) : ℚ := ((round (q * 10000) : ℤ) : ℚ) / 10000

/-- The `detection_factors` list built alongside the score (lines 222–263),
in source order. -/
def detection_factors (m : Indicators) : List String :=
  (if 1/50 < m.edge_density then ["edge_detection"] else [])
  ++ (if 200 < m.color_variance then ["color_variation"] else [])
  ++ (if m.avg_brightness < 120 then ["shadow_detected"]
      else if 140 < m.avg_brightness then ["bright_surface"] else [])
  ++ (if 1 < m.contour_count then ["shape_detected"] else [])
  ++ (if 15 < m.texture_std then ["texture_variation"] else [])
  ++ (if 2 ≤ weak_signals m then ["multiple_weak_signals"] else [])

/-- The `metrics` block of the returned per-spot record. -/
structure Metrics where
  edge_density : ℚ
  color_variance : ℚ
  avg_brightness : ℚ
  contour_count : ℕ
  combined_score : ℚ
deriving DecidableEq

/-- The per-spot record returned by `_analyze_single_spot` (`id` and
`coordinates` omitted: they are copied verbatim from the input spot). -/
structure SpotResult where
  occupied : Bool
  confidence : ℚ
  metrics : Metrics
  detection_factors : List String
deriving DecidableEq

def zeroMetrics : Metrics := ⟨0, 0, 0, 0, 0⟩

/-- The clipped width of `_analyze_single_spot` (lines 153–158):
`x = max(0, min(x, img_width - 1)); w = min(w, img_width - x)`. -/
def clipW (imgW x w : ℤ) : ℤ := min w (imgW - max 0 (min x (imgW - 1)))

/-- The clipped height, symmetric to `clipW`. -/
def clipH (imgH y h : ℤ) : ℤ := min h (imgH - max 0 (min y (imgH - 1)))

/-- Embeds `ParkingDetector._analyze_single_spot` (parking_detector.py,
lines 145–286).  After clipping to the image bounds, a region with
non-positive width or height short-circuits to the `invalid_coordinates`
result; an empty region of interest (the numpy slice has `size`
`w * h` once the clipped extents are positive) to the `empty_roi` result;
otherwise the indicator scoring runs and the reported confidence and
metrics are rounded as in the source. -/
def analyze_single_spot (imgW imgH x y w h : ℤ) (m : Indicators) : SpotResult :=
  let w2 := clipW imgW x w
  let h2 := clipH imgH y h
  if w2 ≤ 0 ∨ h2 ≤ 0 then ⟨false, 0, zeroMetrics, ["invalid_coordinates"]⟩
  else if w2 * h2 = 0 then ⟨false, 0, zeroMetrics, ["empty_roi"]⟩
  else
    ⟨spot_occupied m, round2 (spot_confidence m),
     ⟨round4 m.edge_density, round2 m.color_variance,
      round2 m.avg_brightness, m.contour_count, round2 (spot_score m)⟩,
     detection_factors m⟩

/-! ### Aggregate occupancy rates -/

/-- The published rate of `ParkingDetector.detect_parking_spaces`
(parking_detector.py, lines 97–110), as a function of the per-spot occupancy
flags: `occupied_spots / total_spots` (or `0` for an empty lot), rounded to
two decimals. -/
def detector_occupancy_rate (occ : List Bool) : ℚ :=
  round2 (if occ.length = 0 then 0
          else ((occ.countP id : ℕ) : ℚ) / ((occ.length : ℕ) : ℚ))

/-- The number of spaces classified occupied by
`YOLOParkingDetector.analyze_parking_lot`. -/
def yolo_occupied_count (spaces cars : List BoxC) : ℕ :=
  spaces.countP (fun s =>
    decide (classifyOverlap (maxOverlapWithCars s cars) = SpaceStatus.occupied))

/-- The published rate of `YOLOParkingDetector.analyze_parking_lot`
(yolo_detector.py, lines 63–70):
`len(occupied_spaces) / len(parking_spaces) if parking_spaces else 0` —
note: not rounded. -/
def yolo_occupancy_rate (spaces cars : List BoxC) : ℚ :=
  if spaces.isEmpty then 0
  else ((yolo_occupied_count spaces cars : ℕ) : ℚ) / ((spaces.length : ℕ) : ℚ)

/-- A rational that is an integer multiple of `1/20`: every cumulative score
and confidence of the static feature classifier has this form, which makes
`round(…, 2)` the identity on them. -/
def isMul20 (q : ℚ) : Prop := ∃ k : ℤ, q = (k : ℚ) / 20

/-! ### Helper lemmas -/

/-- Helper: two positive integers bounded by two factors and with equal
products must agree factor-wise. -/
lemma mul_eq_mul_of_le_of_le {a b c d : ℤ} (ha : 0 < a) (hb : 0 < b)
    (hac : a ≤ c) (hbd : b ≤ d) (h : a * b = c * d) : a = c ∧ b = d := by
  have hc : 0 < c := lt_of_lt_of_le ha hac
  have hd : 0 < d := lt_of_lt_of_le hb hbd
  constructor
  · nlinarith
  · nlinarith

lemma isMul20_add {a b : ℚ} (ha : isMul20 a) (hb : isMul20 b) :
    isMul20 (a + b) := by
  obtain ⟨j, rfl⟩ := ha
  obtain ⟨k, rfl⟩ := hb
  exact ⟨j + k, by push_cast; ring⟩

lemma isMul20_ite (P : Prop) [Decidable P] {a b : ℚ} (ha : isMul20 a)
    (hb : isMul20 b) : isMul20 (if P then a else b) := by
  split
  · exact ha
  · exact hb

lemma isMul20_eq {k : ℤ} {q : ℚ} (h : q = (k : ℚ) / 20) : isMul20 q := ⟨k, h⟩

lemma isMul20_min_one {a : ℚ} (ha : isMul20 a) : isMul20 (min a 1) := by
  rcases le_total a 1 with h | h
  · rwa [min_eq_left h]
  · rw [min_eq_right h]; exact ⟨20, by norm_num⟩

lemma isMul20_one_sub {a : ℚ} (ha : isMul20 a) : isMul20 (1 - a) := by
  obtain ⟨k, rfl⟩ := ha
  exact ⟨20 - k, by push_cast; ring⟩

lemma brightness_score_isMul20 (b : ℚ) : isMul20 (brightness_score b) := by
  unfold brightness_score
  exact isMul20_ite _ (isMul20_eq (k := 5) (by norm_num))
    (isMul20_ite _ (isMul20_eq (k := 3) (by norm_num))
      (isMul20_eq (k := 0) (by norm_num)))

lemma spot_score_isMul20 (m : Indicators) : isMul20 (spot_score m) := by
  unfold spot_score
  have z : isMul20 (0 : ℚ) := isMul20_eq (k := 0) (by norm_num)
  refine isMul20_add (isMul20_add (isMul20_add (isMul20_add (isMul20_add
    (isMul20_ite _ (isMul20_eq (k := 7) (by norm_num)) z)
    (isMul20_ite _ (isMul20_eq (k := 6) (by norm_num)) z))
    (brightness_score_isMul20 _))
    (isMul20_ite _ (isMul20_eq (k := 6) (by norm_num)) z))
    (isMul20_ite _ (isMul20_eq (k := 4) (by norm_num)) z))
    (isMul20_ite _ (isMul20_eq (k := 3) (by norm_num)) z)

lemma round2_of_isMul20 {q : ℚ} (h : isMul20 q) : round2 q = q := by
  obtain ⟨k, rfl⟩ := h
  unfold round2
  have h100 : (k : ℚ) / 20 * 100 = ((5 * k : ℤ) : ℚ) := by push_cast; ring
  rw [h100, round_intCast]
  push_cast
  ring

lemma spot_confidence_isMul20 (m : Indicators) : isMul20 (spot_confidence m) := by
  unfold spot_confidence
  exact isMul20_ite _ (isMul20_min_one (spot_score_isMul20 m))
    (isMul20_one_sub (spot_score_isMul20 m))

lemma round2_spot_confidence (m : Indicators) :
    round2 (spot_confidence m) = spot_confidence m :=
  round2_of_isMul20 (spot_confidence_isMul20 m)

lemma brightness_score_nonneg (b : ℚ) : 0 ≤ brightness_score b := by
  unfold brightness_score
  split_ifs <;> norm_num

lemma spot_score_nonneg (m : Indicators) : 0 ≤ spot_score m := by
  unfold spot_score
  have : 0 ≤ brightness_score m.avg_brightness := brightness_score_nonneg _
  split_ifs <;> linarith

/-- Helper for monotonicity: a nonnegative conditional bonus grows when its
condition becomes easier to satisfy. -/
lemma ite_zero_le_ite_zero {P Q : Prop} [Decidable P] [Decidable Q] {a : ℚ}
    (ha : 0 ≤ a) (h : P → Q) : (if P then a else 0) ≤ (if Q then a else 0) := by
  split_ifs with h1 h2
  · exact le_refl a
  · exact absurd (h h1) h2
  · exact ha
  · exact le_refl 0

/-- Nat version of `ite_zero_le_ite_zero` for the weak-signal count. -/
lemma ite_one_le_ite_one {P Q : Prop} [Decidable P] [Decidable Q]
    (h : P → Q) : (if P then 1 else 0 : ℕ) ≤ (if Q then 1 else 0) := by
  split_ifs with h1 h2
  · exact le_refl 1
  · exact absurd (h h1) h2
  · exact Nat.zero_le 1
  · exact le_refl 0

/-- The threshold test against a running maximum succeeds iff the seed or
some list element beats the threshold. -/
lemma lt_foldl_max_iff (t : ℚ) (f : CarDet → ℚ) :
    ∀ (l : List CarDet) (a : ℚ),
      t < l.foldl (fun acc c => max acc (f c)) a ↔ t < a ∨ ∃ c ∈ l, t < f c := by
  intro l
  induction l with
  | nil => intro a; simp
  | cons c rest ih =>
    intro a
    simp only [List.foldl_cons, ih, lt_max_iff, List.mem_cons]
    constructor
    · rintro (( h | h) | ⟨d, hd, hfd⟩)
      · exact Or.inl h
      · exact Or.inr ⟨c, Or.inl rfl, h⟩
      · exact Or.inr ⟨d, Or.inr hd, hfd⟩
    · rintro (h | ⟨d, (rfl | hd), hfd⟩)
      · exact Or.inl (Or.inl h)
      · exact Or.inl (Or.inr hfd)
      · exact Or.inr ⟨d, hd, hfd⟩

/-! ### Claim theorems -/

/-- Claim C1: the three states of `YOLOParkingDetector.analyze_parking_lot`
partition the overlap domain exhaustively and without double coverage: with
thresholds `0.2` / `0.6`, an overlap `> 0.6` is classified occupied, an
overlap `> 0.2` and `≤ 0.6` partially free (the spec's `partial`), an
overlap `≤ 0.2` free — so every overlap receives exactly one state — and an
overlap of exactly `0.25` is classified partially free. -/
theorem classifyOverlap_partition :
    (∀ r : ℚ,
      (classifyOverlap r = SpaceStatus.occupied ↔ 3/5 < r)
      ∧ (classifyOverlap r = SpaceStatus.partlyFree ↔ 1/5 < r ∧ r ≤ 3/5)
      ∧ (classifyOverlap r = SpaceStatus.free ↔ r ≤ 1/5)) ∧
    classifyOverlap (1/4) = SpaceStatus.partlyFree := by
  constructor
  · intro r
    unfold classifyOverlap
    split_ifs with h1 h2
    · exact ⟨iff_of_true rfl h1,
        iff_of_false (by simp) (by rintro ⟨-, hr⟩; linarith),
        iff_of_false (by simp) (by intro hr; linarith)⟩
    · exact ⟨iff_of_false (by simp) h1,
        iff_of_true rfl ⟨h2, not_lt.mp h1⟩,
        iff_of_false (by simp) (by intro hr; linarith)⟩
    · exact ⟨iff_of_false (by simp) h1,
        iff_of_false (by simp) (by rintro ⟨hr, -⟩; exact h2 hr),
        iff_of_true rfl (not_lt.mp h2)⟩
  · norm_num [classifyOverlap]

/-- Claim C1 witness: an overlap of `0.7` is classified occupied, by the
partition theorem. -/
theorem classifyOverlap_partition_witness :
    classifyOverlap (7/10) = SpaceStatus.occupied :=
  (classifyOverlap_partition.1 (7/10)).1.mpr (by norm_num)

/-- Claim C4: the static feature classifier's verdict is a strict comparison
at the cutoff: occupied iff the cumulative score is strictly greater than
`0.25` (so a score of exactly `0.25` gives occupied = false), and the
reported (2-decimal-rounded) confidence equals `min(score, 1.0)` when
occupied and `1 - score` otherwise. -/
theorem spot_verdict_cutoff (m : Indicators) :
    (spot_occupied m = true ↔ 1/4 < spot_score m)
    ∧ round2 (spot_confidence m)
        = (if 1/4 < spot_score m then min (spot_score m) 1 else 1 - spot_score m)
    ∧ (spot_score m = 1/4 → spot_occupied m = false) := by
  refine ⟨by simp [spot_occupied], ?_, ?_⟩
  · rw [round2_spot_confidence]; rfl
  · intro h
    simp [spot_occupied, h]

/-- Claim C4 witness: the indicator vector that fires only the shadow bonus
has score exactly `0.25` and the verdict is not-occupied. -/
theorem spot_verdict_cutoff_witness :
    spot_score ⟨0, 0, 100, 0, 0⟩ = 1/4
    ∧ spot_occupied ⟨0, 0, 100, 0, 0⟩ = false := by
  have hs : spot_score ⟨0, 0, 100, 0, 0⟩ = 1/4 := by
    norm_num [spot_score, brightness_score, weak_signals]
  exact ⟨hs, (spot_verdict_cutoff ⟨0, 0, 100, 0, 0⟩).2.2 hs⟩

/-- Claim C7: saving a `ParkingMapper`'s space map and loading it into a
fresh mapper reproduces the identical ordered list of parking spaces and the
identical `video_width` and `video_height`. -/
theorem save_load_round_trip (m : MapperState) :
    load_parking_spaces (save_parking_spaces m) = m := rfl

/-- Claim C2 counterexample: the claim is false for the YOLO matcher.  The
detection box `(0,0)–(2,2)` fully contains the unit space box `(0,0)–(1,1)`,
yet `_calculate_max_overlap_with_cars` reports `1/4` (it computes symmetric
IoU, not intersection over space area), so the overlap is not `1` for a
fully contained space. -/
theorem yolo_overlap_is_iou_cex :
    boxContainsC ⟨0, 0, 2, 2⟩ ⟨0, 0, 1, 1⟩
    ∧ maxOverlapWithCars ⟨0, 0, 1, 1⟩ [⟨0, 0, 2, 2⟩] = 1/4
    ∧ (1/4 : ℚ) ≠ 1 := by
  refine ⟨⟨by norm_num, by norm_num, by norm_num, by norm_num⟩, ?_, by norm_num⟩
  have hiou : calculateIou ⟨0, 0, 1, 1⟩ ⟨0, 0, 2, 2⟩ = 1/4 := by
    norm_num [calculateIou, min_def, max_def]
  simp only [maxOverlapWithCars, List.foldl, hiou]
  exact max_eq_right (by norm_num)

/-- Claim C2 amended: `ParkingMapper._calculate_space_overlap` is
intersection area over space area with all three claimed properties (value
in `[0,1]`, zero iff the boxes do not intersect, one iff the detection box
fully contains the space box); the YOLO matcher
`_calculate_max_overlap_with_cars`, by contrast, uses symmetric IoU, for
which full containment does not give overlap `1` (see the
counterexample). -/
theorem spaceOverlap_spec (s c : Box) (hw : 0 < s.w) (hh : 0 < s.h) :
    0 ≤ spaceOverlap s c ∧ spaceOverlap s c ≤ 1
    ∧ (spaceOverlap s c = 0 ↔ ¬ boxesIntersect s c)
    ∧ (spaceOverlap s c = 1 ↔ boxContains c s) := by
  have harea : (0 : ℤ) < s.w * s.h := mul_pos hw hh
  by_cases hg : min (s.x + s.w) (c.x + c.w) ≤ max s.x c.x ∨
      min (s.y + s.h) (c.y + c.h) ≤ max s.y c.y
  · have hval : spaceOverlap s c = 0 := by
      simp only [spaceOverlap]
      rw [if_pos hg]
    have hni : ¬ boxesIntersect s c := by
      rintro ⟨h1, h2⟩
      rcases hg with hg | hg <;> omega
    have hnc : ¬ boxContains c s := by
      rintro ⟨h1, h2, h3, h4⟩
      rcases hg with hg | hg <;> omega
    rw [hval]
    exact ⟨le_refl 0, by norm_num, iff_of_true rfl hni,
      iff_of_false (by norm_num) hnc⟩
  · push_neg at hg
    obtain ⟨hgx, hgy⟩ := hg
    set A := min (s.x + s.w) (c.x + c.w) - max s.x c.x with hA
    set B := min (s.y + s.h) (c.y + c.h) - max s.y c.y with hB
    have hA0 : 0 < A := by omega
    have hB0 : 0 < B := by omega
    have hAw : A ≤ s.w := by omega
    have hBh : B ≤ s.h := by omega
    have hval : spaceOverlap s c = ((A * B : ℤ) : ℚ) / ((s.w * s.h : ℤ) : ℚ) := by
      simp only [spaceOverlap]
      rw [if_neg (by omega), if_pos harea]
    have hD0 : (0 : ℚ) < ((s.w * s.h : ℤ) : ℚ) := by exact_mod_cast harea
    have hN0 : (0 : ℚ) < ((A * B : ℤ) : ℚ) := by exact_mod_cast mul_pos hA0 hB0
    have hND : ((A * B : ℤ) : ℚ) ≤ ((s.w * s.h : ℤ) : ℚ) := by
      have : A * B ≤ s.w * s.h := mul_le_mul hAw hBh hB0.le hw.le
      exact_mod_cast this
    rw [hval]
    refine ⟨le_of_lt (div_pos hN0 hD0), (div_le_one hD0).mpr hND, ?_, ?_⟩
    · exact iff_of_false (ne_of_gt (div_pos hN0 hD0))
        (fun hn => hn ⟨hgx, hgy⟩)
    · rw [div_eq_one_iff_eq (ne_of_gt hD0)]
      constructor
      · intro hEq
        have hZ : A * B = s.w * s.h := by exact_mod_cast hEq
        obtain ⟨hA1, hB1⟩ := mul_eq_mul_of_le_of_le hA0 hB0 hAw hBh hZ
        exact ⟨by omega, by omega, by omega, by omega⟩
      · rintro ⟨h1, h2, h3, h4⟩
        have hA1 : A = s.w := by omega
        have hB1 : B = s.h := by omega
        have : A * B = s.w * s.h := by rw [hA1, hB1]
        exact_mod_cast this

/-- Claim C2 witness: a detection box identical to the space box fully
contains it, and the mapper's overlap ratio is `1` there, by the amended
theorem. -/
theorem spaceOverlap_spec_witness :
    spaceOverlap ⟨0, 0, 10, 10⟩ ⟨0, 0, 10, 10⟩ = 1
    ∧ boxContains ⟨0, 0, 10, 10⟩ ⟨0, 0, 10, 10⟩ := by
  have hc : boxContains (⟨0, 0, 10, 10⟩ : Box) ⟨0, 0, 10, 10⟩ :=
    ⟨le_refl _, le_refl _, le_refl _, le_refl _⟩
  exact ⟨((spaceOverlap_spec ⟨0, 0, 10, 10⟩ ⟨0, 0, 10, 10⟩ (by norm_num)
    (by norm_num)).2.2.2).mpr hc, hc⟩

/-- Claim C3 counterexample: `ParkingMapper.check_space_occupancy` does not
take the maximum overlap across detections.  With a first car of overlap
`0.7` and confidence `0.1` and a second car of overlap `1` and confidence
`0.9`, the code matches the first car and reports overlap `0.7` and
confidence `min(1, 0.1 + 0.7·0.3) = 0.31`, while the claim's
max-overlap reading would report overlap `1` and confidence
`min(1, 0.9 + 1·0.3) = 1`. -/
theorem check_space_first_match_cex :
    check_space_occupancy ⟨0, 0, 10, 10⟩
        [⟨⟨0, 0, 10, 7⟩, 1/10, "car1"⟩, ⟨⟨0, 0, 10, 10⟩, 9/10, "car2"⟩]
      = ⟨true, 31/100, some "car1", 7/10⟩
    ∧ maxSpaceOverlap ⟨0, 0, 10, 10⟩
        [⟨⟨0, 0, 10, 7⟩, 1/10, "car1"⟩, ⟨⟨0, 0, 10, 10⟩, 9/10, "car2"⟩] = 1
    ∧ (7/10 : ℚ) ≠ 1
    ∧ (31/100 : ℚ) ≠ min 1 (9/10 + 1 * (3/10)) := by
  have h1 : spaceOverlap ⟨0, 0, 10, 10⟩ ⟨0, 0, 10, 7⟩ = 7/10 := by
    norm_num [spaceOverlap, min_def, max_def]
  have h2 : spaceOverlap ⟨0, 0, 10, 10⟩ ⟨0, 0, 10, 10⟩ = 1 := by
    norm_num [spaceOverlap, min_def, max_def]
  refine ⟨?_, ?_, by norm_num, ?_⟩
  · simp only [check_space_occupancy, h1]
    rw [if_pos (by norm_num)]
    have : min (1 : ℚ) (1/10 + 7/10 * (3/10)) = 31/100 := by
      rw [min_eq_right (by norm_num)]
      norm_num
    rw [this]
  · simp only [maxSpaceOverlap, List.foldl, h1, h2]
    rw [max_eq_right (by norm_num : (0 : ℚ) ≤ 7/10),
      max_eq_right (by norm_num : (7/10 : ℚ) ≤ 1)]
  · rw [min_eq_left (by norm_num)]
    norm_num

/-- Claim C3 amended: `check_space_occupancy` scans the detections in input
order and matches the first whose overlap with the space exceeds the
occupancy threshold `0.3` (the source's threshold, not the spec's `T_high ≈
0.6`), reporting that car's confidence as `min(1.0, confidence + overlap ·
0.3)` and that car's overlap (not the maximum); the space is occupied if
and only if the maximum overlap exceeds `0.3`; when no detection exceeds
the threshold the space is free with fixed confidence `0.8` and
`overlap_ratio` `0.0`. -/
theorem check_space_occupancy_spec (space : Box) (cars : List CarDet) :
    ((check_space_occupancy space cars).occupied = true ↔
       3/10 < maxSpaceOverlap space cars)
    ∧ ((∀ car ∈ cars, spaceOverlap space car.bbox ≤ 3/10) →
        check_space_occupancy space cars = ⟨false, 4/5, none, 0⟩)
    ∧ (∀ (car : CarDet) (rest : List CarDet),
        3/10 < spaceOverlap space car.bbox →
        check_space_occupancy space (car :: rest)
          = ⟨true, min 1 (car.confidence + spaceOverlap space car.bbox * (3/10)),
             some car.id, spaceOverlap space car.bbox⟩)
    ∧ (∀ (car : CarDet) (rest : List CarDet),
        spaceOverlap space car.bbox ≤ 3/10 →
        check_space_occupancy space (car :: rest)
          = check_space_occupancy space rest) := by
  refine ⟨?_, ?_, ?_, ?_⟩
  · have hocc : ∀ l : List CarDet,
        ((check_space_occupancy space l).occupied = true ↔
          ∃ car ∈ l, 3/10 < spaceOverlap space car.bbox) := by
      intro l
      induction l with
      | nil => simp [check_space_occupancy]
      | cons car rest ih =>
        by_cases h : 3/10 < spaceOverlap space car.bbox
        · simp [check_space_occupancy, h]
        · simp only [check_space_occupancy, if_neg h, ih, List.mem_cons]
          constructor
          · rintro ⟨d, hd, hfd⟩
            exact ⟨d, Or.inr hd, hfd⟩
          · rintro ⟨d, (rfl | hd), hfd⟩
            · exact absurd hfd h
            · exact ⟨d, hd, hfd⟩
    have hmax : (3/10 < maxSpaceOverlap space cars ↔
        ∃ car ∈ cars, 3/10 < spaceOverlap space car.bbox) := by
      rw [maxSpaceOverlap, lt_foldl_max_iff]
      norm_num
    exact (hocc cars).trans hmax.symm
  · induction cars with
    | nil => intro _; rfl
    | cons car rest ih =>
      intro hall
      have hc : ¬ 3/10 < spaceOverlap space car.bbox :=
        not_lt.mpr (hall car (List.mem_cons_self car rest))
      rw [check_space_occupancy, if_neg hc]
      exact ih (fun d hd => hall d (List.mem_cons_of_mem car hd))
  · intro car rest h
    rw [check_space_occupancy, if_pos h]
  · intro car rest h
    rw [check_space_occupancy, if_neg (not_lt.mpr h)]

/-- Claim C3 witness (the spec's Scenario A): a single detection fully
covering the space with confidence `0.9` yields an occupied result with
confidence `min(1, 0.9 + 1·0.3) = 1`, by the amended theorem. -/
theorem check_space_occupancy_spec_witness :
    check_space_occupancy ⟨0, 0, 10, 10⟩ [⟨⟨0, 0, 10, 10⟩, 9/10, "c"⟩]
      = ⟨true, 1, some "c", 1⟩ := by
  have hov : spaceOverlap ⟨0, 0, 10, 10⟩ (⟨0, 0, 10, 10⟩ : Box) = 1 := by
    norm_num [spaceOverlap, min_def, max_def]
  have h := (check_space_occupancy_spec ⟨0, 0, 10, 10⟩ []).2.2.1
    ⟨⟨0, 0, 10, 10⟩, 9/10, "c"⟩ [] (by rw [show CarDet.bbox ⟨⟨0, 0, 10, 10⟩, 9/10, "c"⟩
      = (⟨0, 0, 10, 10⟩ : Box) from rfl, hov]; norm_num)
  rw [h]
  simp only [hov]
  rw [min_eq_left (by norm_num)]

/-- Claim C5: for every spot whose region is degenerate after clipping to
the frame bounds, `_analyze_single_spot` returns (it never raises — in the
embedding it is a total function) occupied = false with confidence `0.0`,
all metrics zeroed, and reason code `invalid_coordinates` when the clipped
width or height is zero or negative, or `empty_roi` when the region of
interest is empty. -/
theorem analyze_degenerate (imgW imgH x y w h : ℤ) (m : Indicators) :
    (clipW imgW x w ≤ 0 ∨ clipH imgH y h ≤ 0 →
      analyze_single_spot imgW imgH x y w h m
        = ⟨false, 0, zeroMetrics, ["invalid_coordinates"]⟩)
    ∧ (0 < clipW imgW x w → 0 < clipH imgH y h →
        clipW imgW x w * clipH imgH y h = 0 →
      analyze_single_spot imgW imgH x y w h m
        = ⟨false, 0, zeroMetrics, ["empty_roi"]⟩) := by
  constructor
  · intro hdeg
    simp only [analyze_single_spot]
    rw [if_pos hdeg]
  · intro hw hh h0
    simp only [analyze_single_spot]
    rw [if_neg (by push_neg; exact ⟨hw, hh⟩), if_pos h0]

/-- Claim C5 witness (the spec's Scenario C): a zero-width spot inside a
614×408 frame short-circuits to the `invalid_coordinates` result. -/
theorem analyze_degenerate_witness :
    analyze_single_spot 614 408 10 15 0 75 ⟨0, 0, 0, 0, 0⟩
      = ⟨false, 0, zeroMetrics, ["invalid_coordinates"]⟩ :=
  (analyze_degenerate 614 408 10 15 0 75 ⟨0, 0, 0, 0, 0⟩).1
    (Or.inl (by norm_num [clipW, min_def, max_def]))

/-- Claim C10: for every spot whose clipped region is non-degenerate, the
confidence returned by `_analyze_single_spot` lies in `(0, 1]` — in
particular only degenerate regions ever produce a confidence of `0.0` — and
whenever the verdict is occupied = false the confidence is at least
`0.75`. -/
theorem analyze_confidence_range (imgW imgH x y w h : ℤ) (m : Indicators)
    (hw : 0 < clipW imgW x w) (hh : 0 < clipH imgH y h) :
    0 < (analyze_single_spot imgW imgH x y w h m).confidence
    ∧ (analyze_single_spot imgW imgH x y w h m).confidence ≤ 1
    ∧ ((analyze_single_spot imgW imgH x y w h m).occupied = false →
        3/4 ≤ (analyze_single_spot imgW imgH x y w h m).confidence) := by
  have heq : analyze_single_spot imgW imgH x y w h m =
      ⟨spot_occupied m, spot_confidence m,
       ⟨round4 m.edge_density, round2 m.color_variance, round2 m.avg_brightness,
        m.contour_count, round2 (spot_score m)⟩, detection_factors m⟩ := by
    simp only [analyze_single_spot]
    rw [if_neg (by push_neg; exact ⟨hw, hh⟩),
      if_neg (mul_pos hw hh).ne', round2_spot_confidence]
  rw [heq]
  simp only
  have h0 : 0 ≤ spot_score m := spot_score_nonneg m
  unfold spot_confidence spot_occupied
  by_cases hs : 1/4 < spot_score m
  · rw [if_pos hs]
    refine ⟨lt_min (by linarith) one_pos, min_le_right _ _, ?_⟩
    intro hocc
    simp at hocc
    exfalso
    linarith
  · have hs4 : spot_score m ≤ 1/4 := not_lt.mp hs
    rw [if_neg hs]
    exact ⟨by linarith, by linarith, fun _ => by linarith⟩

/-- Claim C10 witness: a non-degenerate spot of a 614×408 frame whose
indicators all read zero scores `0.25` (the brightness-zero shadow bonus),
so the verdict is not-occupied and the confidence is `0.75 ≥ 3/4`. -/
theorem analyze_confidence_range_witness :
    3/4 ≤ (analyze_single_spot 614 408 10 15 35 75 ⟨0, 0, 0, 0, 0⟩).confidence := by
  have hw : (0 : ℤ) < clipW 614 10 35 := by norm_num [clipW, min_def, max_def]
  have hh : (0 : ℤ) < clipH 408 15 75 := by norm_num [clipH, min_def, max_def]
  have hsc : spot_score ⟨0, 0, 0, 0, 0⟩ = 1/4 := by
    norm_num [spot_score, brightness_score, weak_signals]
  have hocc : (analyze_single_spot 614 408 10 15 35 75 ⟨0, 0, 0, 0, 0⟩).occupied
      = false := by
    simp only [analyze_single_spot]
    rw [if_neg (show ¬(clipW 614 10 35 ≤ 0 ∨ clipH 408 15 75 ≤ 0) by
        push_neg; exact ⟨hw, hh⟩),
      if_neg (show ¬(clipW 614 10 35 * clipH 408 15 75 = 0) from
        (mul_pos hw hh).ne')]
    simp only [spot_occupied, hsc]
    norm_num
  exact (analyze_confidence_range 614 408 10 15 35 75 ⟨0, 0, 0, 0, 0⟩ hw hh).2.2 hocc

/-- Claim C6 counterexample: `detect_cars_hybrid` drops a blob detection
only when its IoU against a model detection is strictly greater than `0.3`,
so a blob at IoU exactly `0.3` is retained: with the model box
`(0,0,10,1)` and the blob box `(0,0,3,1)` (IoU `= 3/10`), both the boosted
model detection and the blob detection appear in the output — a
model/blob pair with mutual IoU at the dedup threshold, which the claim
says cannot occur. -/
theorem fuser_boundary_cex :
    boostDet ⟨⟨0, 0, 10, 1⟩, 2/3⟩
        ∈ detect_cars_hybrid [⟨⟨0, 0, 10, 1⟩, 2/3⟩] [⟨⟨0, 0, 3, 1⟩, 2/5⟩]
    ∧ (⟨⟨0, 0, 3, 1⟩, 2/5⟩ : Det)
        ∈ detect_cars_hybrid [⟨⟨0, 0, 10, 1⟩, 2/3⟩] [⟨⟨0, 0, 3, 1⟩, 2/5⟩]
    ∧ calculate_overlap ⟨0, 0, 10, 1⟩ ⟨0, 0, 3, 1⟩ = 3/10 := by
  have hio : calculate_overlap (⟨0, 0, 10, 1⟩ : Box) ⟨0, 0, 3, 1⟩ = 3/10 := by
    norm_num [calculate_overlap, min_def, max_def]
  have hio2 : calculate_overlap (⟨0, 0, 3, 1⟩ : Box) ⟨0, 0, 10, 1⟩ = 3/10 := by
    norm_num [calculate_overlap, min_def, max_def]
  have hkeep : keepBlob [⟨⟨0, 0, 10, 1⟩, 2/3⟩] ⟨⟨0, 0, 3, 1⟩, 2/5⟩ = true := by
    simp [keepBlob, hio2]
  refine ⟨?_, ?_, hio⟩
  · simp [detect_cars_hybrid, List.mem_mergeSort]
  · simp only [detect_cars_hybrid, List.mem_mergeSort, List.mem_append,
      List.mem_filter, List.mem_singleton]
    exact Or.inr ⟨by simp, hkeep⟩

/-- Claim C6 amended: `detect_cars_hybrid` is a deterministic function of
its two input lists; it is a permutation of (every model detection with
confidence boosted by `1.2` and capped at `1.0`) together with (the blob
detections whose IoU against every model detection does not exceed `0.3` —
a blob at IoU exactly `0.3` is retained, only a strictly larger IoU drops
it), sorted by confidence descending; boosted confidences never exceed
`1.0`, and every retained blob has IoU at most `0.3` (not strictly below)
against every model detection. -/
theorem detect_cars_hybrid_spec (yolo blobs : List Det) :
    (detect_cars_hybrid yolo blobs).Perm
        (yolo.map boostDet ++ blobs.filter (keepBlob yolo))
    ∧ (detect_cars_hybrid yolo blobs).Pairwise
        (fun a b => b.confidence ≤ a.confidence)
    ∧ (∀ d ∈ yolo.map boostDet, d.confidence ≤ 1)
    ∧ (∀ b ∈ blobs.filter (keepBlob yolo), ∀ y2 ∈ yolo,
        calculate_overlap b.bbox y2.bbox ≤ 3/10) := by
  refine ⟨List.mergeSort_perm _ _, ?_, ?_, ?_⟩
  · have h : ((yolo.map boostDet ++ blobs.filter (keepBlob yolo)).mergeSort
        (fun a b : Det => decide (b.confidence ≤ a.confidence))).Pairwise
        (fun a b : Det => decide (b.confidence ≤ a.confidence) = true) :=
      List.sorted_mergeSort
        (fun a b c h1 h2 => by
          simp only [decide_eq_true_eq] at h1 h2 ⊢
          exact le_trans h2 h1)
        (fun a b => by
          simp only [Bool.or_eq_true, decide_eq_true_eq]
          exact le_total b.confidence a.confidence)
        (yolo.map boostDet ++ blobs.filter (keepBlob yolo))
    exact h.imp (fun hab => by simpa using hab)
  · intro d hd
    rw [List.mem_map] at hd
    obtain ⟨a, _, rfl⟩ := hd
    exact min_le_left _ _
  · intro b hb y2 hy
    rw [List.mem_filter] at hb
    have hk := hb.2
    simp only [keepBlob, Bool.not_eq_eq_eq_not, Bool.not_true, List.any_eq_false] at hk
    have h3 := hk y2 hy
    simp only [decide_eq_true_eq] at h3
    exact not_lt.mp h3

/-- Claim C6 witness: the boosted confidence of a model detection with
confidence `0.5` stays at most `1`, by the amended theorem applied to a
concrete input. -/
theorem detect_cars_hybrid_spec_witness :
    (boostDet ⟨⟨0, 0, 10, 1⟩, 2/3⟩).confidence ≤ 1 :=
  (detect_cars_hybrid_spec [⟨⟨0, 0, 10, 1⟩, 2/3⟩] []).2.2.1
    (boostDet ⟨⟨0, 0, 10, 1⟩, 2/3⟩) (by simp)

/-- Claim C8 counterexample: `YOLOParkingDetector.analyze_parking_lot`
publishes the exact, unrounded ratio.  With three spaces of which exactly
one is occupied, the published rate is `1/3`, which differs from the
2-decimal rounding `0.33` the claim asserts for every report. -/
theorem yolo_rate_unrounded_cex :
    yolo_occupancy_rate
        [⟨0, 0, 10, 10⟩, ⟨100, 100, 110, 110⟩, ⟨200, 200, 210, 210⟩]
        [⟨0, 0, 10, 10⟩] = 1/3
    ∧ round2 (1/3) = 33/100
    ∧ (1/3 : ℚ) ≠ 33/100 := by
  have hA : maxOverlapWithCars ⟨0, 0, 10, 10⟩ [⟨0, 0, 10, 10⟩] = 1 := by
    have h : calculateIou (⟨0, 0, 10, 10⟩ : BoxC) ⟨0, 0, 10, 10⟩ = 1 := by
      norm_num [calculateIou, min_def, max_def]
    simp only [maxOverlapWithCars, List.foldl, h]
    exact max_eq_right (by norm_num)
  have hB : maxOverlapWithCars ⟨100, 100, 110, 110⟩ [⟨0, 0, 10, 10⟩] = 0 := by
    have h : calculateIou (⟨100, 100, 110, 110⟩ : BoxC) ⟨0, 0, 10, 10⟩ = 0 := by
      norm_num [calculateIou, min_def, max_def]
    simp only [maxOverlapWithCars, List.foldl, h]
    exact max_self 0
  have hC : maxOverlapWithCars ⟨200, 200, 210, 210⟩ [⟨0, 0, 10, 10⟩] = 0 := by
    have h : calculateIou (⟨200, 200, 210, 210⟩ : BoxC) ⟨0, 0, 10, 10⟩ = 0 := by
      norm_num [calculateIou, min_def, max_def]
    simp only [maxOverlapWithCars, List.foldl, h]
    exact max_self 0
  have c1 : classifyOverlap 1 = SpaceStatus.occupied := by norm_num [classifyOverlap]
  have c0 : classifyOverlap 0 = SpaceStatus.free := by norm_num [classifyOverlap]
  refine ⟨?_, ?_, by norm_num⟩
  · simp [yolo_occupancy_rate, yolo_occupied_count, List.countP_cons, hA, hB, hC,
      c1, c0]
  · unfold round2
    rw [show ((1 : ℚ)/3 * 100) = 100/3 by norm_num, round_eq]
    norm_num

/-- Claim C8 amended: `ParkingDetector.detect_parking_spaces` publishes
`occupied_count / total_spaces` rounded to 2 decimal places (and `0` when
`total_spaces` is `0`), recomputable from the per-space occupancy flags;
`YOLOParkingDetector.analyze_parking_lot`, by contrast, publishes the exact
unrounded ratio `occupied_count / total_spaces`, also `0` when there are no
spaces. -/
theorem occupancy_rate_spec :
    (∀ occ : List Bool, occ ≠ [] →
       detector_occupancy_rate occ
         = round2 (((occ.countP id : ℕ) : ℚ) / ((occ.length : ℕ) : ℚ)))
    ∧ detector_occupancy_rate [] = 0
    ∧ (∀ spaces cars : List BoxC, spaces ≠ [] →
       yolo_occupancy_rate spaces cars
         = ((yolo_occupied_count spaces cars : ℕ) : ℚ) / ((spaces.length : ℕ) : ℚ))
    ∧ (∀ cars : List BoxC, yolo_occupancy_rate [] cars = 0) := by
  refine ⟨?_, ?_, ?_, ?_⟩
  · intro occ hne
    unfold detector_occupancy_rate
    rw [if_neg (by simpa [List.length_eq_zero] using hne)]
  · unfold detector_occupancy_rate round2
    norm_num
  · intro spaces cars hne
    unfold yolo_occupancy_rate
    rw [if_neg (by simpa [List.isEmpty_iff] using hne)]
  · intro cars
    rfl

/-- Claim C8 witness: for a one-spot lot with its spot occupied, the static
detector's published rate equals the rounded recomputed ratio, by the
amended theorem. -/
theorem occupancy_rate_spec_witness :
    detector_occupancy_rate [true]
      = round2 (((List.countP id [true] : ℕ) : ℚ) / ((List.length [true] : ℕ) : ℚ)) :=
  occupancy_rate_spec.1 [true] (by simp)

/-- Claim C9 counterexample: the cumulative score is not monotone in the
average brightness: raising the brightness from `100` to `130` with every
other indicator held fixed drops the score from `0.25` (shadow bonus) to
`0` (neither the shadow nor the bright-surface bonus fires). -/
theorem spot_score_brightness_cex :
    (100 : ℚ) < 130
    ∧ spot_score ⟨0, 0, 100, 0, 0⟩ = 1/4
    ∧ spot_score ⟨0, 0, 130, 0, 0⟩ = 0 := by
  refine ⟨by norm_num, ?_, ?_⟩ <;>
    norm_num [spot_score, brightness_score, weak_signals]

/-- Claim C9 amended: the cumulative score is monotonically non-decreasing
in the edge density, the color variance, the texture standard deviation and
the contour count, each with all other indicators held fixed; it is not
monotone in the average brightness (see the counterexample), whose
shadow/bright-surface banding makes the score drop between the two
thresholds. -/
theorem spot_score_mono_four :
    (∀ (m : Indicators) (e : ℚ), m.edge_density ≤ e →
      spot_score m ≤ spot_score
        ⟨e, m.color_variance, m.avg_brightness, m.texture_std, m.contour_count⟩)
    ∧ (∀ (m : Indicators) (v : ℚ), m.color_variance ≤ v →
      spot_score m ≤ spot_score
        ⟨m.edge_density, v, m.avg_brightness, m.texture_std, m.contour_count⟩)
    ∧ (∀ (m : Indicators) (t : ℚ), m.texture_std ≤ t →
      spot_score m ≤ spot_score
        ⟨m.edge_density, m.color_variance, m.avg_brightness, t, m.contour_count⟩)
    ∧ (∀ (m : Indicators) (k : ℕ), m.contour_count ≤ k →
      spot_score m ≤ spot_score
        ⟨m.edge_density, m.color_variance, m.avg_brightness, m.texture_std, k⟩) := by
  refine ⟨?_, ?_, ?_, ?_⟩
  · intro m e he
    have hws : weak_signals m ≤ weak_signals
        ⟨e, m.color_variance, m.avg_brightness, m.texture_std, m.contour_count⟩ := by
      unfold weak_signals
      dsimp only
      exact Nat.add_le_add (Nat.add_le_add
        (ite_one_le_ite_one (fun hp => lt_of_lt_of_le hp he)) le_rfl) le_rfl
    unfold spot_score
    dsimp only
    exact add_le_add (add_le_add (add_le_add (add_le_add (add_le_add
      (ite_zero_le_ite_zero (by norm_num) (fun hp => lt_of_lt_of_le hp he))
      le_rfl) le_rfl) le_rfl) le_rfl)
      (ite_zero_le_ite_zero (by norm_num) (fun hp => le_trans hp hws))
  · intro m v hv
    have hws : weak_signals m ≤ weak_signals
        ⟨m.edge_density, v, m.avg_brightness, m.texture_std, m.contour_count⟩ := by
      unfold weak_signals
      dsimp only
      exact Nat.add_le_add (Nat.add_le_add le_rfl
        (ite_one_le_ite_one (fun hp => lt_of_lt_of_le hp hv))) le_rfl
    unfold spot_score
    dsimp only
    exact add_le_add (add_le_add (add_le_add (add_le_add (add_le_add
      le_rfl
      (ite_zero_le_ite_zero (by norm_num) (fun hp => lt_of_lt_of_le hp hv)))
      le_rfl) le_rfl) le_rfl)
      (ite_zero_le_ite_zero (by norm_num) (fun hp => le_trans hp hws))
  · intro m t ht
    have hws : weak_signals m ≤ weak_signals
        ⟨m.edge_density, m.color_variance, m.avg_brightness, t, m.contour_count⟩ := by
      unfold weak_signals
      dsimp only
      exact Nat.add_le_add le_rfl
        (ite_one_le_ite_one (fun hp => lt_of_lt_of_le hp ht))
    unfold spot_score
    dsimp only
    exact add_le_add (add_le_add (add_le_add (add_le_add (add_le_add
      le_rfl le_rfl) le_rfl) le_rfl)
      (ite_zero_le_ite_zero (by norm_num) (fun hp => lt_of_lt_of_le hp ht)))
      (ite_zero_le_ite_zero (by norm_num) (fun hp => le_trans hp hws))
  · intro m k hk
    unfold spot_score
    dsimp only
    refine add_le_add (add_le_add (add_le_add (add_le_add (add_le_add
      le_rfl le_rfl) le_rfl)
      (ite_zero_le_ite_zero (by norm_num) (fun hp => lt_of_lt_of_le hp hk)))
      le_rfl) ?_
    have hws : weak_signals m = weak_signals
        ⟨m.edge_density, m.color_variance, m.avg_brightness, m.texture_std, k⟩ := rfl
    rw [hws]

/-- Claim C9 witness: raising the edge density from `0` to `1` with every
other indicator fixed does not decrease the score, by the amended
theorem. -/
theorem spot_score_mono_four_witness :
    spot_score ⟨0, 0, 0, 0, 0⟩ ≤ spot_score ⟨1, 0, 0, 0, 0⟩ :=
  spot_score_mono_four.1 ⟨0, 0, 0, 0, 0⟩ 1 (by norm_num)

end SpotSmart
